import Mathlib

/-!
# A shallow embedding of the LC-3 virtual machine (`src/lc3.c`)

This file embeds the LC-3 emulator of `src/lc3.c` in Lean 4 and proves
properties of the embedded program.  Machine words (`uint16_t` in the C
source) are modelled as `Nat` values together with explicit reductions
`% 65536` at every point where the C program's fixed-width arithmetic
wraps.  Memory is modelled as a total function `Nat → Nat`; the C
declaration `uint16_t memory[UINT16_MAX]` fixes the byte-for-byte extent
of the real array, and that declared length (65535 cells, not 65536) is
modelled separately by `memoryDeclLength` below.  I/O (the `check_key`
poll, `getchar`, and the stream written with `putc`) is modelled by
explicit oracle lists threaded through the machine state.
-/

set_option autoImplicit false

namespace LC3

/-- Modulus of 16-bit word arithmetic (`uint16_t` wraps at `2^16`). -/
def WORD_MOD : Nat := 65536

/-- Register indices, mirroring `enum registers` in the source:
`R_R0 = 0` … `R_R7 = 7`, `R_PC = 8`, `R_COND = 9`. -/
def R_R0 : Nat := 0
def R_R7 : Nat := 7
def R_PC : Nat := 8
def R_COND : Nat := 9

/-- `FL_POS = 1 << 0` from `enum condition_flags`. -/
def FL_POS : Nat := 1
/-- `FL_ZRO = 1 << 1` from `enum condition_flags`. -/
def FL_ZRO : Nat := 2
/-- `FL_NEG = 1 << 2` from `enum condition_flags`. -/
def FL_NEG : Nat := 4

/-- `MR_KBSR = 0xFE00`, the keyboard status address. -/
def MR_KBSR : Nat := 0xFE00
/-- `MR_KBDR = 0xFE02`, the keyboard data address. -/
def MR_KBDR : Nat := 0xFE02

/-- The declared length of the C memory array:
`uint16_t memory[UINT16_MAX];` declares `UINT16_MAX = 65535` cells,
valid indices `0 … 65534`. -/
def memoryDeclLength : Nat := 65535

/-- An index into the C array `memory` is in bounds exactly when it is
below the declared length. -/
def memIndexInBounds (a : Nat) : Prop := a < memoryDeclLength

instance (a : Nat) : Decidable (memIndexInBounds a) :=
  inferInstanceAs (Decidable (a < memoryDeclLength))

/-- `sign_extend` from the source:

```c
uint16_t sign_extend(uint16_t x, int bit_count)
{
    if ((x >> (bit_count - 1)) & 1)
    {
        x |= (0xFFFF << bit_count);
    }
    return x;
}
```

`0xFFFF << bit_count` is `int` arithmetic in C; the assignment back into
the `uint16_t` variable truncates to 16 bits, hence the `% WORD_MOD`. -/
def sign_extend (x : Nat) (bit_count : Nat) : Nat :=
  if (x >>> (bit_count - 1)) &&& 1 = 1 then
    (x ||| (0xFFFF <<< bit_count)) % WORD_MOD
  else
    x

/-- `swap16` from the source: `(x << 8) | (x >> 8)` on a `uint16_t`
(byte swap; the shift result is truncated back to 16 bits). -/
def swap16 (x : Nat) : Nat :=
  ((x <<< 8) % WORD_MOD) ||| (x >>> 8)

/-- The condition-flag value `update_flags` computes for a register
value `v`: `FL_ZRO` when `v == 0`, `FL_NEG` when `v >> 15` is nonzero,
`FL_POS` otherwise. -/
def flagOf (v : Nat) : Nat :=
  if v = 0 then FL_ZRO
  else if v >>> 15 ≠ 0 then FL_NEG
  else FL_POS

/-- Store into a `uint16_t` cell of an array modelled as a total
function: the stored value is truncated to 16 bits by the cell type.
The model gives the memory function the full 16-bit index extent; the
C declaration's shorter extent (65535 cells) is treated by
`memoryDeclLength` above. -/
def memUpd (m : Nat → Nat) (a v : Nat) : Nat → Nat :=
  fun x => if x = a then v % WORD_MOD else m x

/-- The machine state of the emulator: the `reg` array (indices
`0 … 9`), the `memory` array, and the I/O environment.  `polls` is the
oracle of successive `check_key` results, `input` the oracle of
successive `getchar` results (end of the list models end of input:
`getchar` returns `EOF = -1`, i.e. `0xFFFF` once stored in a 16-bit
location), `output` the bytes written with `putc`/`puts`.  `running`
is the loop variable of `main`; `fault` records that `abort()` was
reached (the process is gone, no further steps happen). -/
structure Machine where
  reg : Nat → Nat
  mem : Nat → Nat
  polls : List Bool
  input : List Nat
  output : List Nat
  running : Bool
  fault : Bool

/-- `reg[r] = v` — the destination is a `uint16_t`, so the value wraps. -/
def setReg (s : Machine) (r v : Nat) : Machine :=
  { s with reg := fun i => if i = r then v % WORD_MOD else s.reg i }

/-- `update_flags(r)` from the source, acting on the machine state. -/
def update_flags (s : Machine) (r : Nat) : Machine :=
  setReg s R_COND (flagOf (s.reg r))

/-- `getchar()`: pops the next character of the input oracle; an
exhausted oracle models end of input, where `getchar` returns `EOF`.
`EOF = -1` is represented as `0xFFFF`, its value in every 16-bit
location the source stores it to. -/
def getcharM (s : Machine) : Nat × Machine :=
  match s.input with
  | c :: rest => (c, { s with input := rest })
  | [] => (0xFFFF, s)

/-- `mem_read` from the source.  A read of `MR_KBSR` first runs
`check_key()` (popping the poll oracle; an exhausted oracle models "no
key pending") and updates `memory[MR_KBSR]`/`memory[MR_KBDR]`
accordingly, then the addressed cell is returned. -/
def mem_read (s : Machine) (address : Nat) : Nat × Machine :=
  if address = MR_KBSR then
    match s.polls with
    | b :: ps =>
      let s1 : Machine := { s with polls := ps }
      if b then
        let g := getcharM s1
        let s2 := { g.2 with
          mem := memUpd (memUpd g.2.mem MR_KBSR 0x8000) MR_KBDR g.1 }
        (s2.mem address, s2)
      else
        let s2 := { s1 with mem := memUpd s1.mem MR_KBSR 0 }
        (s2.mem address, s2)
    | [] =>
      let s2 := { s with mem := memUpd s.mem MR_KBSR 0 }
      (s2.mem address, s2)
  else
    (s.mem address, s)

/-- `mem_write` from the source: `memory[address] = val`. -/
def mem_write (s : Machine) (address val : Nat) : Machine :=
  { s with mem := memUpd s.mem address val }

/-- The `TRAP_PUTS` loop: starting at address `a`, emit the low byte
of each word until a zero word.  The C loop walks a raw pointer
through the array; the fuel counts the cells left up to the end of the
address space, and exhausting it (the pointer running off the end,
undefined in C) yields `none`. -/
def putsScan (m : Nat → Nat) : Nat → Nat → Option (List Nat)
  | _, 0 => none
  | a, fuel + 1 =>
    if m a = 0 then some []
    else (putsScan m (a + 1) fuel).map fun l => (m a % 256) :: l

/-- The `TRAP_PUTSP` loop: per nonzero word emit the low byte
(`(*c) & 0xFF`), then the high byte (`(*c) >> 8`) if it is nonzero. -/
def putspScan (m : Nat → Nat) : Nat → Nat → Option (List Nat)
  | _, 0 => none
  | a, fuel + 1 =>
    if m a = 0 then some []
    else
      (putspScan m (a + 1) fuel).map fun l =>
        (m a % 256) :: (if m a / 256 ≠ 0 then [m a / 256] else []) ++ l

/-- The bytes `printf("Enter a character: ")` writes for `TRAP_IN`. -/
def promptBytes : List Nat := "Enter a character: ".data.map Char.toNat

/-- The bytes `puts("HALT")` writes (including the trailing newline). -/
def haltBytes : List Nat := "HALT".data.map Char.toNat ++ [10]

/-- The body of the `switch (op)` statement of `main`, applied to the
machine state after the fetch (`reg[R_PC]` already incremented).

The source's outer `switch` has `case` labels for fourteen of the
sixteen opcode values and **no `default`**: the values `8` (`OP_RTI`)
and `13` (`OP_RES`) fall through the whole `switch` and execution
silently continues with the next fetch.  (The `case OP_RES: case
OP_RTI: default: abort();` labels sit inside the *inner* `switch` on
the trap vector at lines 503–508, where `OP_RES`/`OP_RTI` are merely
the trap-code values `0x0D`/`0x08`.)  The final `else s` branch below
is that silent fall-through. -/
def execInstr (s : Machine) (instr : Nat) : Machine :=
  let op := instr >>> 12
  if op = 1 then
    /- OP_ADD -/
    let r0 := (instr >>> 9) &&& 0x7
    let r1 := (instr >>> 6) &&& 0x7
    let imm_flag := (instr >>> 5) &&& 0x1
    let s :=
      if imm_flag = 1 then
        let imm5 := sign_extend (instr &&& 0x1F) 5
        setReg s r0 (s.reg r1 + imm5)
      else
        let r2 := instr &&& 0x7
        setReg s r0 (s.reg r1 + s.reg r2)
    update_flags s r0
  else if op = 5 then
    /- OP_AND -/
    let r0 := (instr >>> 9) &&& 0x7
    let r1 := (instr >>> 6) &&& 0x7
    let imm_flag := (instr >>> 5) &&& 0x1
    let s :=
      if imm_flag = 1 then
        let imm5 := sign_extend (instr &&& 0x1F) 5
        setReg s r0 (s.reg r1 &&& imm5)
      else
        let r2 := instr &&& 0x7
        setReg s r0 (s.reg r1 &&& s.reg r2)
    update_flags s r0
  else if op = 9 then
    /- OP_NOT: `~` on a `uint16_t` value flips its 16 bits -/
    let r0 := (instr >>> 9) &&& 0x7
    let r1 := (instr >>> 6) &&& 0x7
    let s := setReg s r0 (s.reg r1 ^^^ 0xFFFF)
    update_flags s r0
  else if op = 0 then
    /- OP_BR -/
    let pc_offset := sign_extend (instr &&& 0x1FF) 9
    let cond_flag := (instr >>> 9) &&& 0x7
    if cond_flag &&& s.reg R_COND ≠ 0 then
      setReg s R_PC (s.reg R_PC + pc_offset)
    else s
  else if op = 12 then
    /- OP_JMP (also RET) -/
    let r1 := (instr >>> 6) &&& 0x7
    setReg s R_PC (s.reg r1)
  else if op = 4 then
    /- OP_JSR / OP_JSRR -/
    let long_flag := (instr >>> 11) &&& 1
    let s := setReg s R_R7 (s.reg R_PC)
    if long_flag = 1 then
      let long_pc_offset := sign_extend (instr &&& 0x7FF) 11
      setReg s R_PC (s.reg R_PC + long_pc_offset)
    else
      let r1 := (instr >>> 6) &&& 0x7
      setReg s R_PC (s.reg r1)
  else if op = 2 then
    /- OP_LD -/
    let r0 := (instr >>> 9) &&& 0x7
    let pc_offset := sign_extend (instr &&& 0x1FF) 9
    let rd := mem_read s ((s.reg R_PC + pc_offset) % WORD_MOD)
    let s := setReg rd.2 r0 rd.1
    update_flags s r0
  else if op = 10 then
    /- OP_LDI -/
    let r0 := (instr >>> 9) &&& 0x7
    let pc_offset := sign_extend (instr &&& 0x1FF) 9
    let rd1 := mem_read s ((s.reg R_PC + pc_offset) % WORD_MOD)
    let rd2 := mem_read rd1.2 (rd1.1 % WORD_MOD)
    let s := setReg rd2.2 r0 rd2.1
    update_flags s r0
  else if op = 6 then
    /- OP_LDR -/
    let r0 := (instr >>> 9) &&& 0x7
    let r1 := (instr >>> 6) &&& 0x7
    let offset := sign_extend (instr &&& 0x3F) 6
    let rd := mem_read s ((s.reg r1 + offset) % WORD_MOD)
    let s := setReg rd.2 r0 rd.1
    update_flags s r0
  else if op = 14 then
    /- OP_LEA -/
    let r0 := (instr >>> 9) &&& 0x7
    let pc_offset := sign_extend (instr &&& 0x1FF) 9
    let s := setReg s r0 (s.reg R_PC + pc_offset)
    update_flags s r0
  else if op = 3 then
    /- OP_ST -/
    let r0 := (instr >>> 9) &&& 0x7
    let pc_offset := sign_extend (instr &&& 0x1FF) 9
    mem_write s ((s.reg R_PC + pc_offset) % WORD_MOD) (s.reg r0)
  else if op = 11 then
    /- OP_STI -/
    let r0 := (instr >>> 9) &&& 0x7
    let pc_offset := sign_extend (instr &&& 0x1FF) 9
    let rd := mem_read s ((s.reg R_PC + pc_offset) % WORD_MOD)
    mem_write rd.2 (rd.1 % WORD_MOD) (rd.2.reg r0)
  else if op = 7 then
    /- OP_STR -/
    let r0 := (instr >>> 9) &&& 0x7
    let r1 := (instr >>> 6) &&& 0x7
    let offset := sign_extend (instr &&& 0x3F) 6
    mem_write s ((s.reg r1 + offset) % WORD_MOD) (s.reg r0)
  else if op = 15 then
    /- OP_TRAP: `reg[R_R7] = reg[R_PC];` precedes the vector dispatch -/
    let s := setReg s R_R7 (s.reg R_PC)
    let vect := instr &&& 0xFF
    if vect = 0x20 then
      /- TRAP_GETC: `reg[R_R0] = (uint16_t)getchar();` -/
      let g := getcharM s
      let s := setReg g.2 R_R0 g.1
      update_flags s R_R0
    else if vect = 0x21 then
      /- TRAP_OUT: `putc((char)reg[R_R0], stdout);` -/
      { s with output := s.output ++ [s.reg R_R0 % 256] }
    else if vect = 0x22 then
      /- TRAP_PUTS: a `none` scan means the pointer ran off the end of
      the address space, undefined behaviour in C, modelled as a fault -/
      match putsScan s.mem (s.reg R_R0) (WORD_MOD - s.reg R_R0) with
      | some l => { s with output := s.output ++ l }
      | none => { s with fault := true }
    else if vect = 0x23 then
      /- TRAP_IN: prompt, echo the read character, store it in R0.
      `char c = getchar()` truncates to a (signed) byte; storing that
      `char` into the `uint16_t` register sign-extends it again. -/
      let g := getcharM s
      let v := g.1 % 256
      let c16 := if v < 128 then v else 0xFF00 + v
      let s := { g.2 with output := g.2.output ++ promptBytes ++ [v] }
      let s := setReg s R_R0 c16
      update_flags s R_R0
    else if vect = 0x24 then
      /- TRAP_PUTSP -/
      match putspScan s.mem (s.reg R_R0) (WORD_MOD - s.reg R_R0) with
      | some l => { s with output := s.output ++ l }
      | none => { s with fault := true }
    else if vect = 0x25 then
      /- TRAP_HALT: `puts("HALT"); running = 0;` -/
      { s with output := s.output ++ haltBytes, running := false }
    else
      /- `case OP_RES: case OP_RTI: default: abort();` — the inner
      switch treats every unrecognized trap vector (including `0x0D`
      and `0x08`, spelled with the opcode enum names) as a fatal
      fault. -/
      { s with fault := true }
  else
    /- opcodes 8 (OP_RTI) and 13 (OP_RES): no case label and no
    default in the outer switch — the instruction silently does
    nothing. -/
    s

/-- One iteration of the `while (running)` loop: fetch
(`mem_read(reg[R_PC]++)`), decode, execute.  A machine that has
stopped (`running = 0`) or aborted takes no further steps. -/
def step (s : Machine) : Machine :=
  if s.running = false ∨ s.fault = true then s
  else
    let pc := s.reg R_PC
    let fetched := mem_read s pc
    let s1 := setReg fetched.2 R_PC (pc + 1)
    execInstr s1 fetched.1

/-- `n` iterations of the execution loop. -/
def stepN (n : Nat) (s : Machine) : Machine :=
  match n with
  | 0 => s
  | n + 1 => stepN n (step s)

/-- The machine state `main` sets up before entering the loop:
`reg` zero-initialized (a C global), then `reg[R_COND] = FL_ZRO` and
`reg[R_PC] = PC_START = 0x3000`; memory as populated by the image
loader. -/
def initialMachine (m : Nat → Nat) (polls : List Bool) (input : List Nat) :
    Machine :=
  { reg := fun i => if i = R_COND then FL_ZRO else if i = R_PC then 0x3000 else 0
    mem := m
    polls := polls
    input := input
    output := []
    running := true
    fault := false }

/-- Pair a byte stream into 16-bit words the way `fread` into
`uint16_t` elements on a little-endian host followed by `swap16`
does: two consecutive file bytes `b0, b1` land as the host value
`b0 + 256 * b1` and are byte-swapped to `b0 * 256 + b1` (big-endian on
disk).  `fread` only counts complete elements, so a trailing odd byte
yields no word (the partial element's cell is indeterminate in C and
left unchanged here). -/
def chunkWords : List Nat → List Nat
  | b0 :: b1 :: rest => swap16 (b0 + 256 * b1) :: chunkWords rest
  | _ => []

/-- Store a list of words at consecutive addresses. -/
def writeWords (m : Nat → Nat) : Nat → List Nat → Nat → Nat
  | _, [] => m
  | a, w :: ws => writeWords (memUpd m a w) (a + 1) ws

/-- `read_image_file` from the source, on the byte stream of the file:
the first two bytes are read into `origin` (`fread` + `swap16`), the
rest is read as at most `max_read = UINT16_MAX - origin` words which
are byte-swapped in place.  No read is ever checked: a stream with
fewer than two bytes leaves `origin` uninitialized and loads nothing
(the second `fread` is already at end of file), and a trailing odd
byte is silently dropped by `fread`'s element count.  The function has
no failure outcome. -/
def read_image_file (bytes : List Nat) (m : Nat → Nat) : Nat → Nat :=
  match bytes with
  | b0 :: b1 :: rest =>
    let origin := swap16 (b0 + 256 * b1)
    writeWords m origin ((chunkWords rest).take (65535 - origin))
  | _ => m

/-- `read_image` from the source: returns `none` (C: `0`) exactly when
`fopen` fails — modelled by the `openOk` flag — and otherwise runs
`read_image_file` on the file's byte stream and succeeds. -/
def read_image (openOk : Bool) (bytes : List Nat) (m : Nat → Nat) :
    Option (Nat → Nat) :=
  if openOk then some (read_image_file bytes m) else none

/-- Exactly one of the three condition flags, `FL_POS`, `FL_ZRO` or
`FL_NEG`, as a one-hot 3-bit value. -/
def oneHotFlag (v : Nat) : Prop := v = FL_POS ∨ v = FL_ZRO ∨ v = FL_NEG

instance (v : Nat) : Decidable (oneHotFlag v) :=
  inferInstanceAs (Decidable (_ ∨ _ ∨ _))

/-- The instructions whose `switch` branch calls `update_flags`: ADD,
AND, NOT, LD, LDI, LDR, LEA, and the traps GETC and IN. -/
def writesRegister (instr : Nat) : Bool :=
  let op := instr >>> 12
  op == 1 || op == 5 || op == 9 || op == 2 || op == 10 || op == 6 || op == 14 ||
    (op == 15 && ((instr &&& 0xFF) == 0x20 || (instr &&& 0xFF) == 0x23))

/-- The register such an instruction writes: `R0` for the traps, the
`DR` field (bits 11:9) otherwise. -/
def destReg (instr : Nat) : Nat :=
  if instr >>> 12 = 15 then R_R0 else (instr >>> 9) &&& 0x7

/-! ## Basic lemmas about the state operations -/

@[simp] lemma setReg_reg_eq (s : Machine) (r v : Nat) :
    (setReg s r v).reg r = v % WORD_MOD := by
  simp [setReg]

lemma setReg_reg_ne (s : Machine) (r v i : Nat) (h : i ≠ r) :
    (setReg s r v).reg i = s.reg i := by
  simp [setReg, h]

@[simp] lemma setReg_mem (s : Machine) (r v : Nat) :
    (setReg s r v).mem = s.mem := rfl

@[simp] lemma setReg_output (s : Machine) (r v : Nat) :
    (setReg s r v).output = s.output := rfl

@[simp] lemma setReg_running (s : Machine) (r v : Nat) :
    (setReg s r v).running = s.running := rfl

@[simp] lemma setReg_fault (s : Machine) (r v : Nat) :
    (setReg s r v).fault = s.fault := rfl

@[simp] lemma setReg_polls (s : Machine) (r v : Nat) :
    (setReg s r v).polls = s.polls := rfl

@[simp] lemma setReg_input (s : Machine) (r v : Nat) :
    (setReg s r v).input = s.input := rfl

lemma flagOf_lt (v : Nat) : flagOf v < WORD_MOD := by
  unfold flagOf FL_POS FL_ZRO FL_NEG WORD_MOD
  split <;> simp_all
  split <;> simp_all

lemma oneHotFlag_flagOf (v : Nat) : oneHotFlag (flagOf v) := by
  unfold flagOf oneHotFlag
  split_ifs <;> simp

@[simp] lemma update_flags_cond (s : Machine) (r : Nat) :
    (update_flags s r).reg R_COND = flagOf (s.reg r) := by
  have := flagOf_lt (s.reg r)
  simp [update_flags, Nat.mod_eq_of_lt this]

lemma update_flags_reg_ne (s : Machine) (r i : Nat) (h : i ≠ R_COND) :
    (update_flags s r).reg i = s.reg i := by
  simp [update_flags, setReg_reg_ne _ _ _ _ h]

@[simp] lemma update_flags_mem (s : Machine) (r : Nat) :
    (update_flags s r).mem = s.mem := rfl

@[simp] lemma update_flags_output (s : Machine) (r : Nat) :
    (update_flags s r).output = s.output := rfl

@[simp] lemma update_flags_running (s : Machine) (r : Nat) :
    (update_flags s r).running = s.running := rfl

@[simp] lemma update_flags_fault (s : Machine) (r : Nat) :
    (update_flags s r).fault = s.fault := rfl

@[simp] lemma getcharM_reg (s : Machine) : (getcharM s).2.reg = s.reg := by
  unfold getcharM
  split <;> rfl

@[simp] lemma getcharM_mem (s : Machine) : (getcharM s).2.mem = s.mem := by
  unfold getcharM
  split <;> rfl

@[simp] lemma getcharM_output (s : Machine) : (getcharM s).2.output = s.output := by
  unfold getcharM
  split <;> rfl

@[simp] lemma getcharM_running (s : Machine) :
    (getcharM s).2.running = s.running := by
  unfold getcharM
  split <;> rfl

@[simp] lemma getcharM_fault (s : Machine) : (getcharM s).2.fault = s.fault := by
  unfold getcharM
  split <;> rfl

@[simp] lemma mem_read_reg (s : Machine) (a : Nat) :
    (mem_read s a).2.reg = s.reg := by
  unfold mem_read
  split
  · rename_i h
    cases hp : s.polls with
    | nil => rfl
    | cons b ps => cases b <;> cases hi : s.input <;> simp [getcharM, hi]
  · rfl

@[simp] lemma mem_read_output (s : Machine) (a : Nat) :
    (mem_read s a).2.output = s.output := by
  unfold mem_read
  split
  · rename_i h
    cases hp : s.polls with
    | nil => rfl
    | cons b ps => cases b <;> cases hi : s.input <;> simp [getcharM, hi]
  · rfl

@[simp] lemma mem_read_running (s : Machine) (a : Nat) :
    (mem_read s a).2.running = s.running := by
  unfold mem_read
  split
  · rename_i h
    cases hp : s.polls with
    | nil => rfl
    | cons b ps => cases b <;> cases hi : s.input <;> simp [getcharM, hi]
  · rfl

@[simp] lemma mem_read_fault (s : Machine) (a : Nat) :
    (mem_read s a).2.fault = s.fault := by
  unfold mem_read
  split
  · rename_i h
    cases hp : s.polls with
    | nil => rfl
    | cons b ps => cases b <;> cases hi : s.input <;> simp [getcharM, hi]
  · rfl

@[simp] lemma mem_write_reg (s : Machine) (a v : Nat) :
    (mem_write s a v).reg = s.reg := rfl

end LC3

namespace LC3

/-! ## Sign extension (C5) -/

lemma testBit_iff_and_one (x i : Nat) :
    x.testBit i = true ↔ (x >>> i) &&& 1 = 1 := by
  rw [Nat.testBit_to_div_mod, Nat.and_one_is_mod, Nat.shiftRight_eq_div_pow]
  simp

lemma sign_extend_set_branch (N x : Nat) (hN : N ≤ 16) (hx : x < 2 ^ N) :
    (x ||| (0xFFFF <<< N)) % WORD_MOD = x + (2 ^ 16 - 2 ^ N) := by
  rw [Nat.shiftLeft_eq, mul_comm (0xFFFF : Nat) (2 ^ N), Nat.lor_comm,
    ← Nat.mul_add_lt_is_or hx 0xFFFF]
  have h1 : 2 ^ N ≤ 2 ^ 16 := Nat.pow_le_pow_right (by norm_num) hN
  unfold WORD_MOD
  omega

lemma or_mask_eq_add (N x : Nat) (hN : N ≤ 16) (hx : x < 2 ^ N) :
    x ||| (2 ^ 16 - 2 ^ N) = x + (2 ^ 16 - 2 ^ N) := by
  have h1 : 2 ^ N ≤ 2 ^ 16 := Nat.pow_le_pow_right (by norm_num) hN
  have hb : (1 : Nat) ≤ 2 ^ (16 - N) := Nat.one_le_two_pow
  have e2 : (2 : Int) ^ N * 2 ^ (16 - N) = 2 ^ 16 := by
    rw [← pow_add]
    congr 1
    omega
  have e : 2 ^ 16 - 2 ^ N = 2 ^ N * (2 ^ (16 - N) - 1) := by
    zify [h1, hb]
    rw [← e2]
    ring
  rw [e, Nat.lor_comm, ← Nat.mul_add_lt_is_or hx (2 ^ (16 - N) - 1)]
  omega

/-- C5: for every bit width `N ∈ {5, 6, 9, 11}` and every `N`-bit field
value `x`, if bit `N-1` of `x` is clear then `sign_extend x N = x`
(all higher bits zero), and if bit `N-1` is set then `sign_extend x N`
equals `x` with all bits above `N-1` set to one, which is the same
negative value as `x` under 16-bit two's complement. -/
theorem sign_extend_spec (N x : Nat) (hN : N = 5 ∨ N = 6 ∨ N = 9 ∨ N = 11)
    (hx : x < 2 ^ N) :
    (x.testBit (N - 1) = false → sign_extend x N = x) ∧
    (x.testBit (N - 1) = true →
      sign_extend x N = x ||| (2 ^ 16 - 2 ^ N) ∧
      (sign_extend x N : Int) % 2 ^ 16 = ((x : Int) - 2 ^ N) % 2 ^ 16) := by
  have hN16 : N ≤ 16 := by rcases hN with h | h | h | h <;> omega
  have h1 : 2 ^ N ≤ 2 ^ 16 := Nat.pow_le_pow_right (by norm_num) hN16
  constructor
  · intro hbit
    have hc : ¬ ((x >>> (N - 1)) &&& 1 = 1) := by
      rw [← testBit_iff_and_one, hbit]
      simp
    unfold sign_extend
    rw [if_neg hc]
  · intro hbit
    have hc : (x >>> (N - 1)) &&& 1 = 1 := (testBit_iff_and_one x (N - 1)).mp hbit
    have hval : sign_extend x N = x + (2 ^ 16 - 2 ^ N) := by
      unfold sign_extend
      rw [if_pos hc]
      exact sign_extend_set_branch N x hN16 hx
    refine ⟨?_, ?_⟩
    · rw [hval, or_mask_eq_add N x hN16 hx]
    · have hcast : (sign_extend x N : Int) = (x : Int) + (2 ^ 16 - 2 ^ N) := by
        rw [hval, Nat.cast_add, Nat.cast_sub h1]
        push_cast
        ring
      have hx' : (x : Int) < 2 ^ N := by exact_mod_cast hx
      have h1' : (2 : Int) ^ N ≤ 2 ^ 16 := by exact_mod_cast h1
      rw [hcast]
      omega

/-- Witness for C5 at `N = 5`, `x = 0x10` (bit 4 set): `sign_extend`
produces `0xFFF0`, the two's-complement `-16`. -/
theorem sign_extend_spec_witness :
    sign_extend 0x10 5 = 0x10 ||| (2 ^ 16 - 2 ^ 5) ∧
    (sign_extend 0x10 5 : Int) % 2 ^ 16 = ((0x10 : Int) - 2 ^ 5) % 2 ^ 16 :=
  (sign_extend_spec 5 0x10 (Or.inl rfl) (by decide)).2 (by decide)

/-! ## Memory array extent (C2) -/

/-- C2 fails on the code: `uint16_t memory[UINT16_MAX]` declares only
`65535` cells, so the address `0xFFFE` is a valid index of the array
but the address `0xFFFF` — a legal value of the 16-bit address space
the spec requires to be covered — indexes out of bounds. -/
theorem memory_decl_excludes_top_address :
    memoryDeclLength = 65535 ∧ memIndexInBounds 0xFFFE ∧
      ¬ memIndexInBounds 0xFFFF := by
  refine ⟨rfl, by decide, by decide⟩

/-! ## Undefined opcodes fall through the outer switch (C1) -/

/-- C1 fails on the code: executing the reserved opcode `13` (`RES`,
instruction word `0xD000`) raises no fault at all — the outer `switch`
has no `default:` and no `case` for it, so the machine silently
continues, and a `HALT` placed at the next address still runs.  The
same holds for opcode `8` (`RTI`, word `0x8000`). -/
theorem undefined_opcode_silently_continues :
    (let s0 := initialMachine
      (fun a => if a = 0x3000 then 0xD000 else if a = 0x3001 then 0xF025 else 0)
      [] []
     (step s0).fault = false ∧ (step s0).running = true ∧
      (step s0).reg R_PC = 0x3001 ∧
      (step (step s0)).running = false ∧
      (step (step s0)).output = haltBytes) ∧
    (let s1 := initialMachine (fun a => if a = 0x3000 then 0x8000 else 0) [] []
     (step s1).fault = false ∧ (step s1).running = true ∧
      (step s1).reg R_PC = 0x3001) := by
  constructor
  · refine ⟨by decide, by decide, by decide, by decide, by decide⟩
  · refine ⟨by decide, by decide, by decide⟩

end LC3

namespace LC3

/-! ## JSR/JSRR return address (C6) -/

/-- C6: for every machine state in which the loop fetches a JSR/JSRR
instruction (opcode 4) at address `A = reg[R_PC]`, after the step
`R7` holds `A + 1` modulo `2^16` — whichever of the two forms (long
offset or base register) bit 11 selected. -/
theorem jsr_sets_r7 (s : Machine) (hr : s.running = true) (hf : s.fault = false)
    (hop : (mem_read s (s.reg R_PC)).1 >>> 12 = 4) :
    (step s).reg R_R7 = (s.reg R_PC + 1) % WORD_MOD := by
  unfold step
  simp only [hr, hf]
  simp only [Bool.true_eq_false, Bool.false_eq_true, or_self, if_false]
  unfold execInstr
  simp only [hop]
  norm_num
  split
  · rw [setReg_reg_ne _ _ _ _ (by norm_num [R_PC, R_R7])]
    exact Nat.mod_mod_of_dvd _ dvd_rfl
  · rw [setReg_reg_ne _ _ _ _ (by norm_num [R_PC, R_R7])]
    exact Nat.mod_mod_of_dvd _ dvd_rfl

/-- Witness for C6: a JSR with offset 1 fetched at `0x3000` leaves
`R7 = 0x3001`. -/
theorem jsr_sets_r7_witness :
    (step (initialMachine (fun a => if a = 0x3000 then 0x4801 else 0) [] [])).reg
        R_R7 =
      ((initialMachine (fun a => if a = 0x3000 then 0x4801 else 0) [] []).reg
          R_PC + 1) % WORD_MOD :=
  jsr_sets_r7 _ rfl rfl (by decide)

/-! ## Undefined trap vector faults only after R7 is clobbered (C9) -/

/-- C9: executing a TRAP instruction whose vector is none of the six
defined routines faults, but only after `R7` has been overwritten with
the incremented program counter: at the fault `R7 = PC + 1 (mod 2^16)`,
so the state observable at the fault differs from the pre-instruction
state whenever `R7` did not already hold that value. -/
theorem trap_bad_vector_faults_after_r7 (s : Machine) (hr : s.running = true)
    (hf : s.fault = false)
    (hop : (mem_read s (s.reg R_PC)).1 >>> 12 = 15)
    (hv : (mem_read s (s.reg R_PC)).1 &&& 0xFF ∉
      ([0x20, 0x21, 0x22, 0x23, 0x24, 0x25] : List Nat)) :
    (step s).fault = true ∧
    (step s).reg R_R7 = (s.reg R_PC + 1) % WORD_MOD ∧
    (s.reg R_R7 ≠ (s.reg R_PC + 1) % WORD_MOD →
      (step s).reg R_R7 ≠ s.reg R_R7) := by
  simp only [List.mem_cons, List.not_mem_nil, or_false, not_or] at hv
  obtain ⟨h20, h21, h22, h23, h24, h25⟩ := hv
  have hstep : step s = execInstr
      (setReg (mem_read s (s.reg R_PC)).2 R_PC (s.reg R_PC + 1))
      (mem_read s (s.reg R_PC)).1 := by
    unfold step
    simp [hr, hf]
  rw [hstep]
  unfold execInstr
  simp only [hop]
  norm_num
  rw [if_neg h20, if_neg h21, if_neg h22, if_neg h23, if_neg h24, if_neg h25]
  refine ⟨rfl, by simp, ?_⟩
  intro hne
  simp
  intro h
  exact hne h.symm

/-- Witness for C9: the undefined vector `0xFF` fetched at `0x3000`
faults with `R7 = 0x3001`, a state different from the pre-instruction
one (where `R7 = 0`). -/
theorem trap_bad_vector_faults_after_r7_witness :
    (step (initialMachine (fun a => if a = 0x3000 then 0xF0FF else 0) [] [])).fault
        = true ∧
    (step (initialMachine (fun a => if a = 0x3000 then 0xF0FF else 0) [] [])).reg
        R_R7 =
      ((initialMachine (fun a => if a = 0x3000 then 0xF0FF else 0) [] []).reg
          R_PC + 1) % WORD_MOD ∧
    ((initialMachine (fun a => if a = 0x3000 then 0xF0FF else 0) [] []).reg R_R7 ≠
        ((initialMachine (fun a => if a = 0x3000 then 0xF0FF else 0) [] []).reg
            R_PC + 1) % WORD_MOD →
      (step (initialMachine (fun a => if a = 0x3000 then 0xF0FF else 0) [] [])).reg
          R_R7 ≠
        (initialMachine (fun a => if a = 0x3000 then 0xF0FF else 0) [] []).reg
          R_R7) :=
  trap_bad_vector_faults_after_r7 _ rfl rfl (by decide) (by decide)

/-! ## Memory-mapped keyboard registers (C7) -/

/-- C7: a read of the keyboard-status address `0xFE00` with no
keystroke pending yields `0`; a read with a keystroke of code `c`
pending yields a word with bit 15 set and stores `c` at the
keyboard-data address `0xFE02`, so a subsequent read of `0xFE02`
yields `c`; reads of any other address, and all writes, have ordinary
memory semantics with no poll. -/
theorem mem_read_keyboard_spec :
    (∀ s : Machine, ∀ ps, s.polls = false :: ps → (mem_read s MR_KBSR).1 = 0) ∧
    (∀ s : Machine, s.polls = [] → (mem_read s MR_KBSR).1 = 0) ∧
    (∀ s : Machine, ∀ ps c cs, s.polls = true :: ps → s.input = c :: cs →
      c < WORD_MOD →
      (mem_read s MR_KBSR).1 = 0x8000 ∧
      ((mem_read s MR_KBSR).1).testBit 15 = true ∧
      (mem_read s MR_KBSR).2.mem MR_KBDR = c ∧
      (mem_read (mem_read s MR_KBSR).2 MR_KBDR).1 = c) ∧
    (∀ s : Machine, ∀ a, a ≠ MR_KBSR → mem_read s a = (s.mem a, s)) ∧
    (∀ s : Machine, ∀ a v,
      (mem_write s a v).mem a = v % WORD_MOD ∧
      (∀ b, b ≠ a → (mem_write s a v).mem b = s.mem b) ∧
      (mem_write s a v).polls = s.polls ∧
      (mem_write s a v).input = s.input ∧
      (mem_write s a v).reg = s.reg) := by
  refine ⟨?_, ?_, ?_, ?_, ?_⟩
  · intro s ps hp
    simp [mem_read, hp, memUpd]
  · intro s hp
    simp [mem_read, hp, memUpd]
  · intro s ps c cs hp hi hc
    have h1 : (mem_read s MR_KBSR).1 = 0x8000 := by
      simp [mem_read, hp, getcharM, hi, memUpd, MR_KBSR, MR_KBDR, WORD_MOD]
    have h2 : (mem_read s MR_KBSR).2.mem MR_KBDR = c := by
      simp [mem_read, hp, getcharM, hi, memUpd, MR_KBSR, MR_KBDR,
        Nat.mod_eq_of_lt hc]
    refine ⟨h1, by rw [h1]; decide, h2, ?_⟩
    rw [mem_read, if_neg (by decide : MR_KBDR ≠ MR_KBSR)]
    exact h2
  · intro s a ha
    simp [mem_read, ha]
  · intro s a v
    refine ⟨by simp [mem_write, memUpd], ?_, rfl, rfl, rfl⟩
    intro b hb
    simp [mem_write, memUpd, hb]

/-- Witness for C7, the spec's own scenario: no pending key reads `0`;
pending keystroke `'A' = 0x41` reads status `0x8000` and then data
`0x41`. -/
theorem mem_read_keyboard_spec_witness :
    (mem_read (initialMachine (fun _ => 0) [false] []) MR_KBSR).1 = 0 ∧
    (mem_read (initialMachine (fun _ => 0) [true] [0x41]) MR_KBSR).1 = 0x8000 ∧
    (mem_read (mem_read (initialMachine (fun _ => 0) [true] [0x41]) MR_KBSR).2
        MR_KBDR).1 = 0x41 :=
  ⟨mem_read_keyboard_spec.1 _ [] rfl,
   (mem_read_keyboard_spec.2.2.1 _ [] 0x41 [] rfl rfl (by decide)).1,
   (mem_read_keyboard_spec.2.2.1 _ [] 0x41 [] rfl rfl (by decide)).2.2.2⟩

end LC3

namespace LC3

/-! ## Image loader (C3) -/

/-- C3 fails on the code: `read_image_file` never checks any `fread`
result, so a byte stream that is truncated mid-word loads without any
error.  A one-byte stream (too short even for the origin word) and a
three-byte stream (origin followed by a lone odd byte) both succeed. -/
theorem read_image_succeeds_on_truncated :
    (read_image true [0x30] (fun _ => 0)).isSome = true ∧
    (read_image true [0x30, 0x00, 0x48] (fun _ => 0)).isSome = true := by
  constructor <;> rfl

/-- C3 amended: the image loader fails exactly when the file cannot be
opened (`fopen` returning `NULL` is the only checked failure); every
byte stream — truncated or not — loads successfully, a trailing odd
byte being dropped and a stream shorter than the origin word loading
nothing. -/
theorem read_image_fails_iff_unopenable :
    ∀ (openOk : Bool) (bytes : List Nat) (m : Nat → Nat),
      (read_image openOk bytes m).isSome = openOk := by
  intro openOk bytes m
  cases openOk <;> simp [read_image]

/-! ## The PUTS trap output (C8) -/

lemma putsScan_eq (m : Nat → Nat) :
    ∀ (j a fuel : Nat), j < fuel → m (a + j) = 0 → (∀ i < j, m (a + i) ≠ 0) →
    putsScan m a fuel = some ((List.range j).map fun i => m (a + i) % 256) := by
  intro j
  induction j with
  | zero =>
    intro a fuel hfuel hz _
    obtain ⟨f, rfl⟩ : ∃ f, fuel = f + 1 := ⟨fuel - 1, by omega⟩
    simp only [putsScan]
    rw [if_pos (by simpa using hz)]
    simp
  | succ j ih =>
    intro a fuel hfuel hz hnz
    obtain ⟨f, rfl⟩ : ∃ f, fuel = f + 1 := ⟨fuel - 1, by omega⟩
    have ha : m a ≠ 0 := by simpa using hnz 0 (Nat.succ_pos j)
    simp only [putsScan]
    rw [if_neg ha]
    have hz' : m (a + 1 + j) = 0 := by
      have e : a + 1 + j = a + (j + 1) := by omega
      rw [e]
      exact hz
    have hnz' : ∀ i < j, m (a + 1 + i) ≠ 0 := by
      intro i hi
      have e : a + 1 + i = a + (i + 1) := by omega
      rw [e]
      exact hnz (i + 1) (by omega)
    rw [ih (a + 1) f (by omega) hz' hnz']
    simp only [Option.map_some']
    congr 1
    rw [List.range_succ_eq_map]
    simp only [List.map_cons, List.map_map, Nat.add_zero]
    congr 1
    apply List.map_congr_left
    intro i _
    simp only [Function.comp]
    congr 2
    omega

/-- C8: if memory from the address in `R0` holds `j` nonzero words
followed by a zero word (all within the address space), executing a
`TRAP PUTS` instruction appends to the output exactly the low byte of
each of the `j` words, in address order, and nothing else — the zero
word is not consumed and execution continues normally.  (The
instruction must not itself be fetched from the keyboard status
register, which would repopulate memory during the fetch.) -/
theorem puts_outputs_low_bytes (s : Machine) (hr : s.running = true)
    (hf : s.fault = false) (hpc : s.reg R_PC ≠ MR_KBSR)
    (hop : (mem_read s (s.reg R_PC)).1 >>> 12 = 15)
    (hvect : (mem_read s (s.reg R_PC)).1 &&& 0xFF = 0x22)
    (j : Nat) (hja : s.reg R_R0 + j < WORD_MOD)
    (hz : s.mem (s.reg R_R0 + j) = 0)
    (hnz : ∀ i < j, s.mem (s.reg R_R0 + i) ≠ 0) :
    (step s).output =
      s.output ++ (List.range j).map (fun i => s.mem (s.reg R_R0 + i) % 256) ∧
    (step s).running = true ∧ (step s).fault = false := by
  have hfetch : mem_read s (s.reg R_PC) = (s.mem (s.reg R_PC), s) := by
    rw [mem_read, if_neg hpc]
  have hstep : step s = execInstr (setReg s R_PC (s.reg R_PC + 1))
      (s.mem (s.reg R_PC)) := by
    unfold step
    simp [hr, hf, hfetch]
  rw [hfetch] at hop hvect
  rw [hstep]
  unfold execInstr
  simp only [hop, hvect]
  norm_num
  have hr0 : (setReg (setReg s R_PC (s.reg R_PC + 1)) R_R7
      ((s.reg R_PC + 1) % WORD_MOD)).reg R_R0 = s.reg R_R0 := by
    rw [setReg_reg_ne _ _ _ _ (by decide), setReg_reg_ne _ _ _ _ (by decide)]
  rw [hr0]
  rw [putsScan_eq s.mem j (s.reg R_R0) (WORD_MOD - s.reg R_R0) (by omega) hz hnz]
  refine ⟨by simp, by simp [hr], by simp [hf]⟩

/-- Witness for C8, the spec's own scenario: the word sequence
`[0x48, 0x49, 0x00]` at `R0` makes `TRAP PUTS` output exactly the two
bytes of `"HI"`. -/
theorem puts_outputs_low_bytes_witness :
    (step (initialMachine
        (fun a => if a = 0x3000 then 0xF022
          else if a = 0 then 0x48 else if a = 1 then 0x49 else 0) [] [])).output =
      (initialMachine
        (fun a => if a = 0x3000 then 0xF022
          else if a = 0 then 0x48 else if a = 1 then 0x49 else 0) [] []).output ++
      (List.range 2).map (fun i =>
        (initialMachine
          (fun a => if a = 0x3000 then 0xF022
            else if a = 0 then 0x48 else if a = 1 then 0x49 else 0) [] []).mem
          ((initialMachine
            (fun a => if a = 0x3000 then 0xF022
              else if a = 0 then 0x48 else if a = 1 then 0x49 else 0) [] []).reg
            R_R0 + i) % 256) ∧
    (step (initialMachine
        (fun a => if a = 0x3000 then 0xF022
          else if a = 0 then 0x48 else if a = 1 then 0x49 else 0) [] [])).running =
      true ∧
    (step (initialMachine
        (fun a => if a = 0x3000 then 0xF022
          else if a = 0 then 0x48 else if a = 1 then 0x49 else 0) [] [])).fault =
      false :=
  puts_outputs_low_bytes _ rfl rfl (by decide) (by decide) (by decide) 2
    (by decide) (by decide) (by decide)

/-! ## Termination of the PUTS/PUTSP scan loops (C10) -/

lemma putsScan_isSome (m : Nat → Nat) :
    ∀ (fuel a j : Nat), j < fuel → m (a + j) = 0 →
    (putsScan m a fuel).isSome = true := by
  intro fuel
  induction fuel with
  | zero => intro a j h; omega
  | succ f ih =>
    intro a j hj hz
    simp only [putsScan]
    by_cases ha : m a = 0
    · rw [if_pos ha]; rfl
    · rw [if_neg ha]
      have hj0 : j ≠ 0 := by
        intro h
        subst h
        simp at hz
        exact ha hz
      have hz' : m (a + 1 + (j - 1)) = 0 := by
        have e : a + 1 + (j - 1) = a + j := by omega
        rw [e]
        exact hz
      have := ih (a + 1) (j - 1) (by omega) hz'
      rcases hs : putsScan m (a + 1) f with _ | l
      · rw [hs] at this; simp at this
      · simp

lemma putspScan_isSome (m : Nat → Nat) :
    ∀ (fuel a j : Nat), j < fuel → m (a + j) = 0 →
    (putspScan m a fuel).isSome = true := by
  intro fuel
  induction fuel with
  | zero => intro a j h; omega
  | succ f ih =>
    intro a j hj hz
    simp only [putspScan]
    by_cases ha : m a = 0
    · rw [if_pos ha]; rfl
    · rw [if_neg ha]
      have hj0 : j ≠ 0 := by
        intro h
        subst h
        simp at hz
        exact ha hz
      have hz' : m (a + 1 + (j - 1)) = 0 := by
        have e : a + 1 + (j - 1) = a + j := by omega
        rw [e]
        exact hz
      have := ih (a + 1) (j - 1) (by omega) hz'
      rcases hs : putspScan m (a + 1) f with _ | l
      · rw [hs] at this; simp at this
      · simp

lemma putsScan_local (m m' : Nat → Nat) :
    ∀ (fuel a : Nat), (∀ i, a ≤ i → m' i = m i) →
    putsScan m' a fuel = putsScan m a fuel := by
  intro fuel
  induction fuel with
  | zero => intro a _; rfl
  | succ f ih =>
    intro a h
    simp only [putsScan]
    rw [h a le_rfl, ih (a + 1) (fun i hi => h i (by omega))]

lemma putspScan_local (m m' : Nat → Nat) :
    ∀ (fuel a : Nat), (∀ i, a ≤ i → m' i = m i) →
    putspScan m' a fuel = putspScan m a fuel := by
  intro fuel
  induction fuel with
  | zero => intro a _; rfl
  | succ f ih =>
    intro a h
    simp only [putspScan]
    rw [h a le_rfl, ih (a + 1) (fun i hi => h i (by omega))]

end LC3

namespace LC3

/-! ## Step-level helper lemmas -/

lemma step_eq (s : Machine) (hr : s.running = true) (hf : s.fault = false) :
    step s = execInstr
      (setReg (mem_read s (s.reg R_PC)).2 R_PC (s.reg R_PC + 1))
      (mem_read s (s.reg R_PC)).1 := by
  unfold step
  simp [hr, hf]

lemma step_stuck (s : Machine) (h : s.running = false ∨ s.fault = true) :
    step s = s := by
  unfold step
  rw [if_pos h]

/-- C10: the `TRAP_PUTS` and `TRAP_PUTSP` loops terminate whenever some
address at or above the scan start (the value of `R0`), within the
address space, holds a zero word; the scans are functions of the
memory array alone, read only cells at or above the start address, and
executing either trap performs no keyboard poll (the `check_key` and
`getchar` oracles are untouched). -/
theorem puts_putsp_scans_terminate (m : Nat → Nat) (a j : Nat)
    (hja : a + j < WORD_MOD) (hz : m (a + j) = 0) :
    (putsScan m a (WORD_MOD - a)).isSome = true ∧
    (putspScan m a (WORD_MOD - a)).isSome = true ∧
    (∀ m' : Nat → Nat, (∀ i, a ≤ i → m' i = m i) →
      putsScan m' a (WORD_MOD - a) = putsScan m a (WORD_MOD - a) ∧
      putspScan m' a (WORD_MOD - a) = putspScan m a (WORD_MOD - a)) ∧
    (∀ s : Machine, s.running = true → s.fault = false →
      s.reg R_PC ≠ MR_KBSR →
      (mem_read s (s.reg R_PC)).1 >>> 12 = 15 →
      ((mem_read s (s.reg R_PC)).1 &&& 0xFF = 0x22 ∨
        (mem_read s (s.reg R_PC)).1 &&& 0xFF = 0x24) →
      (step s).polls = s.polls ∧ (step s).input = s.input) := by
  refine ⟨putsScan_isSome m _ a j (by omega) hz,
          putspScan_isSome m _ a j (by omega) hz,
          fun m' h => ⟨putsScan_local m m' _ a h, putspScan_local m m' _ a h⟩,
          ?_⟩
  intro s hr hf hpc hop hv
  have hfetch : mem_read s (s.reg R_PC) = (s.mem (s.reg R_PC), s) := by
    rw [mem_read, if_neg hpc]
  have hstep := step_eq s hr hf
  rw [hfetch] at hop hv hstep
  rw [hstep]
  rcases hv with hv | hv
  · unfold execInstr
    simp only [hop, hv]
    norm_num
    constructor <;> (split <;> rfl)
  · unfold execInstr
    simp only [hop, hv]
    norm_num
    constructor <;> (split <;> rfl)

/-- Witness for C10 at the all-zero memory with scan start 0: both
scans return a value and the no-poll clause holds vacuously at the
instantiating machine. -/
theorem puts_putsp_scans_terminate_witness :
    (putsScan (fun _ => 0) 0 (WORD_MOD - 0)).isSome = true ∧
    (putspScan (fun _ => 0) 0 (WORD_MOD - 0)).isSome = true ∧
    (∀ m' : Nat → Nat, (∀ i, 0 ≤ i → m' i = (fun _ => 0) i) →
      putsScan m' 0 (WORD_MOD - 0) = putsScan (fun _ => 0) 0 (WORD_MOD - 0) ∧
      putspScan m' 0 (WORD_MOD - 0) = putspScan (fun _ => 0) 0 (WORD_MOD - 0)) ∧
    (∀ s : Machine, s.running = true → s.fault = false →
      s.reg R_PC ≠ MR_KBSR →
      (mem_read s (s.reg R_PC)).1 >>> 12 = 15 →
      ((mem_read s (s.reg R_PC)).1 &&& 0xFF = 0x22 ∨
        (mem_read s (s.reg R_PC)).1 &&& 0xFF = 0x24) →
      (step s).polls = s.polls ∧ (step s).input = s.input) :=
  puts_putsp_scans_terminate (fun _ => 0) 0 0 (by decide) rfl

end LC3

namespace LC3

/-! ## Condition flags (C4) -/

lemma testBit15_iff (x : Nat) (hx : x < WORD_MOD) :
    Nat.testBit x 15 = true ↔ x >>> 15 ≠ 0 := by
  rw [testBit_iff_and_one, Nat.and_one_is_mod]
  rw [Nat.shiftRight_eq_div_pow]
  unfold WORD_MOD at hx
  norm_num
  omega

/-- `update_flags` computes, for any in-range value, exactly the flag
the spec describes: `FL_ZRO` iff the value is zero, `FL_NEG` iff bit
15 (the sign bit of the 16-bit two's-complement reading) is set,
`FL_POS` otherwise. -/
lemma flagOf_spec (w : Nat) (hw : w < WORD_MOD) :
    flagOf w = if w = 0 then FL_ZRO
      else if Nat.testBit w 15 then FL_NEG else FL_POS := by
  unfold flagOf
  by_cases h0 : w = 0
  · simp [h0]
  · rw [if_neg h0, if_neg h0]
    by_cases h15 : w >>> 15 ≠ 0
    · rw [if_pos h15, if_pos ((testBit15_iff _ hw).mpr h15)]
    · rw [if_neg h15, if_neg (fun hb => h15 ((testBit15_iff _ hw).mp hb))]

lemma and7_ne_cond (x : Nat) : x &&& 0x7 ≠ R_COND := by
  have : x &&& 0x7 ≤ 0x7 := Nat.and_le_right
  unfold R_COND
  omega

lemma mod_lt_word (v : Nat) : v % WORD_MOD < WORD_MOD :=
  Nat.mod_lt _ (by decide)

lemma execInstr_flag_matches (s : Machine) (instr : Nat)
    (hw : writesRegister instr = true) :
    (execInstr s instr).reg R_COND =
      (if (execInstr s instr).reg (destReg instr) = 0 then FL_ZRO
       else if Nat.testBit ((execInstr s instr).reg (destReg instr)) 15 then FL_NEG
       else FL_POS) ∧
    (execInstr s instr).reg (destReg instr) < WORD_MOD := by
  unfold writesRegister at hw
  simp only [Bool.or_eq_true, beq_iff_eq, Bool.and_eq_true] at hw
  rcases hw with ((((((h | h) | h) | h) | h) | h) | h) | ⟨h, hv⟩
  case _ =>
    unfold execInstr destReg
    simp only [h]
    norm_num
    split <;>
      (rw [update_flags_reg_ne _ _ _ (and7_ne_cond _)]
       simp only [setReg_reg_eq]
       exact ⟨flagOf_spec _ (mod_lt_word _), mod_lt_word _⟩)
  case _ =>
    unfold execInstr destReg
    simp only [h]
    norm_num
    split <;>
      (rw [update_flags_reg_ne _ _ _ (and7_ne_cond _)]
       simp only [setReg_reg_eq]
       exact ⟨flagOf_spec _ (mod_lt_word _), mod_lt_word _⟩)
  case _ =>
    unfold execInstr destReg
    simp only [h]
    norm_num
    rw [update_flags_reg_ne _ _ _ (and7_ne_cond _)]
    simp only [setReg_reg_eq]
    exact ⟨flagOf_spec _ (mod_lt_word _), mod_lt_word _⟩
  case _ =>
    unfold execInstr destReg
    simp only [h]
    norm_num
    rw [update_flags_reg_ne _ _ _ (and7_ne_cond _)]
    simp only [setReg_reg_eq]
    exact ⟨flagOf_spec _ (mod_lt_word _), mod_lt_word _⟩
  case _ =>
    unfold execInstr destReg
    simp only [h]
    norm_num
    rw [update_flags_reg_ne _ _ _ (and7_ne_cond _)]
    simp only [setReg_reg_eq]
    exact ⟨flagOf_spec _ (mod_lt_word _), mod_lt_word _⟩
  case _ =>
    unfold execInstr destReg
    simp only [h]
    norm_num
    rw [update_flags_reg_ne _ _ _ (and7_ne_cond _)]
    simp only [setReg_reg_eq]
    exact ⟨flagOf_spec _ (mod_lt_word _), mod_lt_word _⟩
  case _ =>
    unfold execInstr destReg
    simp only [h]
    norm_num
    rw [update_flags_reg_ne _ _ _ (and7_ne_cond _)]
    simp only [setReg_reg_eq]
    exact ⟨flagOf_spec _ (mod_lt_word _), mod_lt_word _⟩
  case _ =>
    rcases hv with hv | hv
    · unfold execInstr destReg
      simp only [h, hv]
      norm_num
      rw [update_flags_reg_ne _ _ _ (by decide : R_R0 ≠ R_COND)]
      simp only [setReg_reg_eq]
      exact ⟨flagOf_spec _ (mod_lt_word _), mod_lt_word _⟩
    · unfold execInstr destReg
      simp only [h, hv]
      norm_num
      rw [update_flags_reg_ne _ _ _ (by decide : R_R0 ≠ R_COND)]
      simp only [setReg_reg_eq]
      exact ⟨flagOf_spec _ (mod_lt_word _), mod_lt_word _⟩

@[simp] lemma setReg_pc_cond (s : Machine) (v : Nat) :
    (setReg s R_PC v).reg R_COND = s.reg R_COND :=
  setReg_reg_ne _ _ _ _ (by decide)

@[simp] lemma setReg_r7_cond (s : Machine) (v : Nat) :
    (setReg s R_R7 v).reg R_COND = s.reg R_COND :=
  setReg_reg_ne _ _ _ _ (by decide)

lemma execInstr_default (s : Machine) (instr : Nat)
    (h1 : instr >>> 12 ≠ 1) (h5 : instr >>> 12 ≠ 5) (h9 : instr >>> 12 ≠ 9)
    (h0 : instr >>> 12 ≠ 0) (h12 : instr >>> 12 ≠ 12) (h4 : instr >>> 12 ≠ 4)
    (h2 : instr >>> 12 ≠ 2) (h10 : instr >>> 12 ≠ 10) (h6 : instr >>> 12 ≠ 6)
    (h14 : instr >>> 12 ≠ 14) (h3 : instr >>> 12 ≠ 3) (h11 : instr >>> 12 ≠ 11)
    (h7 : instr >>> 12 ≠ 7) (h15 : instr >>> 12 ≠ 15) :
    execInstr s instr = s := by
  unfold execInstr
  simp only [if_neg h1, if_neg h5, if_neg h9, if_neg h0, if_neg h12, if_neg h4,
    if_neg h2, if_neg h10, if_neg h6, if_neg h14, if_neg h3, if_neg h11,
    if_neg h7, if_neg h15]

set_option maxHeartbeats 1000000 in
lemma execInstr_cond_cases (s : Machine) (instr : Nat) :
    (execInstr s instr).reg R_COND = s.reg R_COND ∨
    ∃ v, (execInstr s instr).reg R_COND = flagOf v := by
  by_cases h1 : instr >>> 12 = 1
  · unfold execInstr
    simp only [h1]
    norm_num
  by_cases h5 : instr >>> 12 = 5
  · unfold execInstr
    simp only [h5]
    norm_num
  by_cases h9 : instr >>> 12 = 9
  · unfold execInstr
    simp only [h9]
    norm_num
  by_cases h0 : instr >>> 12 = 0
  · unfold execInstr
    simp only [h0]
    norm_num
    left
    split <;> simp
  by_cases h12 : instr >>> 12 = 12
  · unfold execInstr
    simp only [h12]
    norm_num
  by_cases h4 : instr >>> 12 = 4
  · unfold execInstr
    simp only [h4]
    norm_num
    left
    split <;> simp
  by_cases h2 : instr >>> 12 = 2
  · unfold execInstr
    simp only [h2]
    norm_num
  by_cases h10 : instr >>> 12 = 10
  · unfold execInstr
    simp only [h10]
    norm_num
  by_cases h6 : instr >>> 12 = 6
  · unfold execInstr
    simp only [h6]
    norm_num
  by_cases h14 : instr >>> 12 = 14
  · unfold execInstr
    simp only [h14]
    norm_num
  by_cases h3 : instr >>> 12 = 3
  · unfold execInstr
    simp only [h3]
    norm_num
  by_cases h11 : instr >>> 12 = 11
  · unfold execInstr
    simp only [h11]
    norm_num
  by_cases h7 : instr >>> 12 = 7
  · unfold execInstr
    simp only [h7]
    norm_num
  by_cases h15 : instr >>> 12 = 15
  · unfold execInstr
    simp only [h15]
    norm_num
    split_ifs
    all_goals try (exact Or.inr ⟨_, update_flags_cond _ _⟩)
    all_goals try (left; simp)
    all_goals (left; split <;> simp)
  · left
    rw [execInstr_default s instr h1 h5 h9 h0 h12 h4 h2 h10 h6 h14 h3 h11 h7 h15]

lemma step_cond_cases (s : Machine) :
    (step s).reg R_COND = s.reg R_COND ∨
    ∃ v, (step s).reg R_COND = flagOf v := by
  by_cases hr : s.running = true
  · by_cases hf : s.fault = false
    · rw [step_eq s hr hf]
      rcases execInstr_cond_cases
        (setReg (mem_read s (s.reg R_PC)).2 R_PC (s.reg R_PC + 1))
        (mem_read s (s.reg R_PC)).1 with h | ⟨v, h⟩
      · left
        rw [h]
        simp
      · exact Or.inr ⟨v, h⟩
    · rw [step_stuck s (Or.inr (by simpa using hf))]
      left
      rfl
  · rw [step_stuck s (Or.inl (by simpa using hr))]
    left
    rfl

lemma oneHotFlag_step (s : Machine) (h : oneHotFlag (s.reg R_COND)) :
    oneHotFlag ((step s).reg R_COND) := by
  rcases step_cond_cases s with he | ⟨v, he⟩
  · rw [he]
    exact h
  · rw [he]
    exact oneHotFlag_flagOf v

lemma oneHotFlag_stepN (n : Nat) (s : Machine) (h : oneHotFlag (s.reg R_COND)) :
    oneHotFlag ((stepN n s).reg R_COND) := by
  induction n generalizing s with
  | zero => exact h
  | succ n ih =>
    simp only [stepN]
    exact ih (step s) (oneHotFlag_step s h)

/-- C4: (1) in every state reachable from the initial state (flag set
to `FL_ZRO`) the condition-flag register holds exactly one of
`{FL_POS, FL_ZRO, FL_NEG}`; (2) after any step executing an
instruction that writes a general-purpose register (ADD, AND, NOT, LD,
LDI, LDR, LEA, traps GETC and IN), the flag is exactly the one
matching the written value's 16-bit two's-complement sign: `FL_ZRO`
iff the value is `0`, `FL_NEG` iff its bit 15 is set, `FL_POS`
otherwise — and it is one-hot. -/
theorem flags_one_hot_and_match :
    (∀ (m : Nat → Nat) (polls : List Bool) (input : List Nat) (n : Nat),
      oneHotFlag ((stepN n (initialMachine m polls input)).reg R_COND)) ∧
    (∀ s : Machine, s.running = true → s.fault = false →
      writesRegister (mem_read s (s.reg R_PC)).1 = true →
      (step s).reg R_COND =
        (if (step s).reg (destReg (mem_read s (s.reg R_PC)).1) = 0 then FL_ZRO
         else if Nat.testBit
             ((step s).reg (destReg (mem_read s (s.reg R_PC)).1)) 15
           then FL_NEG else FL_POS) ∧
      oneHotFlag ((step s).reg R_COND)) := by
  constructor
  · intro m polls input n
    apply oneHotFlag_stepN
    have : (initialMachine m polls input).reg R_COND = FL_ZRO := by
      simp [initialMachine]
    rw [this]
    exact Or.inr (Or.inl rfl)
  · intro s hr hf hw
    rw [step_eq s hr hf]
    refine ⟨(execInstr_flag_matches _ _ hw).1, ?_⟩
    rw [(execInstr_flag_matches _ _ hw).1]
    unfold oneHotFlag
    split_ifs <;> simp

/-- Witness for C4 at `ADD R0, R0, #1` fetched at `0x3000` from the
initial state: the flag matches the sign of the written value and is
one-hot. -/
theorem flags_one_hot_and_match_witness :
    (step (initialMachine (fun a => if a = 0x3000 then 0x1021 else 0) [] [])).reg
        R_COND =
      (if (step (initialMachine (fun a => if a = 0x3000 then 0x1021 else 0) [] [])).reg
            (destReg (mem_read
              (initialMachine (fun a => if a = 0x3000 then 0x1021 else 0) [] [])
              ((initialMachine (fun a => if a = 0x3000 then 0x1021 else 0) [] []).reg
                R_PC)).1) = 0 then FL_ZRO
       else if Nat.testBit
           ((step (initialMachine (fun a => if a = 0x3000 then 0x1021 else 0) [] [])).reg
             (destReg (mem_read
               (initialMachine (fun a => if a = 0x3000 then 0x1021 else 0) [] [])
               ((initialMachine (fun a => if a = 0x3000 then 0x1021 else 0) [] []).reg
                 R_PC)).1)) 15
         then FL_NEG else FL_POS) ∧
    oneHotFlag ((step (initialMachine
      (fun a => if a = 0x3000 then 0x1021 else 0) [] [])).reg R_COND) :=
  flags_one_hot_and_match.2 _ rfl rfl (by decide)

end LC3
